import Mathlib

/-!
Shallow embedding of the turn-based combat subsystem of `src/combat.rs`
(repository Lun4t1c/dreadblaze). Entities are modelled as natural numbers,
the ECS component store for `CombatStats` as an association list, Bevy
events as explicit lists passed per tick, and the Bevy `State<CombatState>`
resource as an explicit value. Rust `isize` fields are modelled as `Int`
(the program's values stay far from the machine bounds, and no wrapping
arithmetic occurs in the embedded code). Panics (`expect`, `unwrap`,
`unreachable!`) are modelled as `Except`/`Option` failure values.
-/

namespace Dreadblaze

/-- Rust `CombatStats` component, src/combat.rs lines 47-55. All fields `isize`. -/
structure CombatStats where
  health : Int
  max_health : Int
  mana : Int
  max_mana : Int
  attack : Int
  defense : Int
deriving DecidableEq, Repr

/-- Rust `CombatMenuOption`, src/combat.rs lines 22-27. -/
inductive CombatMenuOption where
  | Attack
  | MagicAttack
  | Run
deriving DecidableEq, Repr

/-- Rust `AttackType`, src/combat.rs lines 63-68. -/
inductive AttackType where
  | Standard
  | MagicGeneric
  | MagicFire
deriving DecidableEq, Repr

/-- Rust `CombatState`, src/combat.rs lines 75-83. -/
inductive CombatState where
  | PlayerTurn
  | PlayerAttack
  | EnemyTurn (acted : Bool)
  | EnemyAttack
  | Reward
  | Exiting
deriving DecidableEq, Repr

/-- Rust `FightEvent`, src/combat.rs lines 40-45. `target` is an entity id. -/
structure FightEvent where
  target : Nat
  attack_type : AttackType
  damage_amount : Int
  next_state : CombatState
deriving DecidableEq, Repr

/-- The ECS world restricted to what the combat systems touch: which
entities carry a `CombatStats` component. -/
def World : Type := List (Nat × CombatStats)

instance : DecidableEq World := by
  unfold World
  infer_instance

/-- Bevy `Query::get_mut(entity)` on a `CombatStats` query: first component
stored for that entity, if any. -/
def lookupStats : World → Nat → Option CombatStats
  | [], _ => none
  | (e, s) :: rest, target => if e = target then some s else lookupStats rest target

/-- Writing back through the mutable query reference obtained from
`get_mut`: replace the target entity's stats. -/
def updateStats (world : World) (target : Nat) (s : CombatStats) : World :=
  world.map (fun p => if p.1 = target then (p.1, s) else p)

/-- The damage formula, src/combat.rs lines 510-513:
`stats.health = max(stats.health - (fight_event.damage_amount - stats.defense), 0)`. -/
def damage_calc_health (health damage_amount defense : Int) : Int :=
  max (health - (damage_amount - defense)) 0

/-- System `combat_damage_calc`, src/combat.rs lines 494-542, restricted to its
game-logic effects (stats mutation and combat-state transition; the
health-text respawn is display refresh only). `events` is this tick's
pending `FightEvent` queue; the system takes only `iter().next()`. The
`expect("Fighting enemy without stats")` panic is the `.error` case. -/
def combat_damage_calc (events : List FightEvent) (world : World)
    (combat_state : CombatState) : Except String (World × CombatState) :=
  match events with
  | [] => .ok (world, combat_state)
  | fight_event :: _ =>
    match lookupStats world fight_event.target with
    | none => .error "Fighting enemy without stats"
    | some stats =>
      let new_health :=
        damage_calc_health stats.health fight_event.damage_amount stats.defense
      let stats' := { stats with health := new_health }
      let world' := updateStats world fight_event.target stats'
      if new_health = 0 then
        .ok (world', CombatState.Reward)
      else
        .ok (world', fight_event.next_state)

/-- Constant `MENU_COUNT`, src/combat.rs line 20. -/
def MENU_COUNT : Int := 3

/-- The Rust discriminant of `CombatMenuOption` (`as isize`). -/
def CombatMenuOption.toIndex : CombatMenuOption → Int
  | .Attack => 0
  | .MagicAttack => 1
  | .Run => 2

/-- The `match new_selection` at src/combat.rs lines 569-574; the
`unreachable!("Bad menu selection")` arm is `none`. -/
def decodeMenuSelection : Int → Option CombatMenuOption
  | 0 => some CombatMenuOption.Attack
  | 1 => some CombatMenuOption.MagicAttack
  | 2 => some CombatMenuOption.Run
  | _ => none

/-- Keys sampled by `combat_input` (edge-triggered `just_pressed`). -/
structure KeyboardInput where
  a : Bool
  d : Bool
  ret : Bool
deriving DecidableEq, Repr

/-- The menu-cycling portion of `combat_input`, src/combat.rs lines
559-574: decrement on A, increment on D, wrap with
`(new_selection + MENU_COUNT) % MENU_COUNT` (Rust `%` on `isize` is
truncated remainder, `Int.tmod`). -/
def combat_menu_cycle (selected : CombatMenuOption) (a d : Bool) :
    Option CombatMenuOption :=
  let s0 := selected.toIndex
  let s1 := if a then s0 - 1 else s0
  let s2 := if d then s1 + 1 else s1
  decodeMenuSelection ((s2 + MENU_COUNT).tmod MENU_COUNT)

/-- Iterated menu cycling: one `combat_menu_cycle` step per tick, each
tick carrying its pair of edge-triggered `(A, D)` key states; `none`
propagates the `unreachable!` panic. -/
def apply_menu_inputs : CombatMenuOption → List (Bool × Bool) →
    Option CombatMenuOption
  | selected, [] => some selected
  | selected, (a, d) :: rest =>
    match combat_menu_cycle selected a d with
    | none => none
    | some s => apply_menu_inputs s rest

/-- Result of one `combat_input` tick: the updated menu selection, the
player's (possibly mutated) stats, the `FightEvent`s written this tick,
and whether `create_fadeout` was called. -/
structure CombatInputResult where
  menu : CombatMenuOption
  player_stats : CombatStats
  events : List FightEvent
  fadeout : Bool
deriving DecidableEq, Repr

/-- System `combat_input`, src/combat.rs lines 544-629, restricted to its
game-logic effects (the mana-text respawn is display refresh only).
`enemy_entity` is `enemy_query.iter().next()`; `none` makes the
`unwrap` panic, modelled as the `none` result, as is the
`unreachable!` arm of the selection match. -/
def combat_input (keyboard : KeyboardInput) (player_stats : CombatStats)
    (enemy_entity : Option Nat) (menu_selected : CombatMenuOption)
    (combat_state : CombatState) : Option CombatInputResult :=
  if combat_state ≠ CombatState.PlayerTurn then
    some ⟨menu_selected, player_stats, [], false⟩
  else
    match combat_menu_cycle menu_selected keyboard.a keyboard.d with
    | none => none
    | some selected =>
      if keyboard.ret then
        match selected with
        | CombatMenuOption.Attack =>
          match enemy_entity with
          | none => none
          | some target =>
            some ⟨selected, player_stats,
              [⟨target, AttackType.Standard, player_stats.attack,
                CombatState.PlayerAttack⟩], false⟩
        | CombatMenuOption.MagicAttack =>
          match enemy_entity with
          | none => none
          | some target =>
            if player_stats.mana > 0 then
              some ⟨selected, { player_stats with mana := player_stats.mana - 1 },
                [⟨target, AttackType.MagicGeneric, 4, CombatState.PlayerAttack⟩],
                false⟩
            else
              some ⟨selected, player_stats, [], false⟩
        | CombatMenuOption.Run =>
          some ⟨selected, player_stats, [], true⟩
      else
        some ⟨selected, player_stats, [], false⟩

/-- System `process_enemy_turn`, src/combat.rs lines 257-274: emit one
`FightEvent` at the player with the enemy's attack stat and move to
`EnemyTurn(true)`. `none` for `enemy_stats` models the `unwrap` panic. -/
def process_enemy_turn (player_ent : Nat) (enemy_stats : Option CombatStats) :
    Option (List FightEvent × CombatState) :=
  match enemy_stats with
  | none => none
  | some stats =>
    some ([⟨player_ent, AttackType.Standard, stats.attack,
      CombatState.EnemyAttack⟩], CombatState.EnemyTurn true)

/-- One tick of the enemy-AI schedule: `process_enemy_turn` is registered
with `SystemSet::on_update(CombatState::EnemyTurn(false))`
(src/combat.rs lines 106-108), so it runs only in that phase; in every
other phase the tick emits nothing and leaves the phase alone. -/
def enemy_turn_tick (combat_state : CombatState) (player_ent : Nat)
    (enemy_stats : Option CombatStats) :
    Option (List FightEvent × CombatState) :=
  if combat_state = CombatState.EnemyTurn false then
    process_enemy_turn player_ent enemy_stats
  else
    some ([], combat_state)

/-- Bevy 0.6 `Timer`, modelled over `ℚ` in place of `f32` (the combat
code only adds deltas and compares against the 0.7s duration, which is
exact in `ℚ`). Fields after `tick`: `finished` is `elapsed >= duration`,
`times_finished` counts completions this tick (for a repeating timer the
elapsed time wraps by the whole number of completed periods). -/
structure Timer where
  elapsed : ℚ
  duration : ℚ
  repeating : Bool
  finished : Bool
  times_finished : Nat
deriving DecidableEq, Repr

/-- Constructor `Timer::from_seconds(duration, repeating)`. -/
def Timer.from_seconds (duration : ℚ) (repeating : Bool) : Timer :=
  { elapsed := 0, duration := duration, repeating := repeating,
    finished := false, times_finished := 0 }

/-- Method `Timer::tick(delta)` of Bevy 0.6 (unpaused): accumulate, set
`finished`, and for a repeating timer wrap `elapsed` modulo `duration`
recording how many periods completed. -/
def Timer.tick (t : Timer) (delta : ℚ) : Timer :=
  if ¬t.repeating ∧ t.finished then
    { t with times_finished := 0 }
  else
    let elapsed := t.elapsed + delta
    if elapsed ≥ t.duration then
      if t.repeating then
        let n := (elapsed / t.duration).floor.toNat
        { t with elapsed := elapsed - t.duration * n, finished := true,
                 times_finished := n }
      else
        { t with elapsed := t.duration, finished := true, times_finished := 1 }
    else
      { t with elapsed := elapsed, finished := false, times_finished := 0 }

/-- Accessor `Timer::just_finished()`. -/
def Timer.just_finished (t : Timer) : Bool :=
  t.times_finished > 0

/-- Accessor `Timer::percent()`. -/
def Timer.percent (t : Timer) : ℚ :=
  t.elapsed / t.duration

/-- Rust `f32` `%` on nonnegative operands: `a - b * floor(a / b)`. -/
def qmod (a b : ℚ) : ℚ :=
  a - b * ((a / b).floor : ℚ)

/-- Resource `AttackEffects`, src/combat.rs lines 85-90, inserted at
lines 96-101 with `timer = Timer::from_seconds(0.7, true)`,
`flash_speed = 0.1`, `screen_shake_amount = 0.1`. -/
structure AttackEffects where
  timer : Timer
  flash_speed : ℚ
  screen_shake_amount : ℚ
  current_shake : ℚ
deriving DecidableEq, Repr

/-- The `AttackEffects` resource as configured by `CombatPlugin::build`. -/
def initial_attack_effects : AttackEffects :=
  { timer := Timer.from_seconds (7/10) true, flash_speed := 1/10,
    screen_shake_amount := 1/10, current_shake := 0 }

/-- System `handle_attack_effects`, src/combat.rs lines 221-249. `sin2pi` stands
for `x ↦ f32::sin(x * 2π)` in the screen-shake branch (transcendental,
irrelevant to visibility and phase; kept as a parameter so the data flow
matches the source). Returns the updated resource, the enemy sprite's
visibility, and the combat state. -/
def handle_attack_effects (sin2pi : ℚ → ℚ) (fx : AttackEffects) (delta : ℚ)
    (enemy_visible : Bool) (state : CombatState) :
    AttackEffects × Bool × CombatState :=
  let timer := fx.timer.tick delta
  let fx1 := { fx with timer := timer }
  let fx2 :=
    if state = CombatState.PlayerAttack then fx1
    else { fx1 with current_shake :=
            fx1.screen_shake_amount * sin2pi timer.percent }
  let vis1 :=
    if state = CombatState.PlayerAttack then
      if qmod timer.elapsed fx1.flash_speed > fx1.flash_speed / 2 then false
      else true
    else enemy_visible
  if timer.just_finished then
    (fx2, true,
      if state = CombatState.PlayerAttack then CombatState.EnemyTurn false
      else CombatState.PlayerTurn)
  else
    (fx2, vis1, state)

/-- The Bat archetype stats, src/combat.rs lines 342-349. -/
def bat_stats : CombatStats :=
  { health := 3, max_health := 3, mana := 0, max_mana := 0, attack := 2,
    defense := 1 }

/-- The Ghost archetype stats, src/combat.rs lines 350-357. -/
def ghost_stats : CombatStats :=
  { health := 5, max_health := 5, mana := 0, max_mana := 0, attack := 3,
    defense := 2 }

/-! ### Helper lemmas -/

theorem lookupStats_cons (e' : Nat) (s' : CombatStats)
    (rest : List (Nat × CombatStats)) (e : Nat) :
    lookupStats ((e', s') :: rest) e =
      if e' = e then some s' else lookupStats rest e := rfl

theorem updateStats_cons (e' : Nat) (s' : CombatStats)
    (rest : List (Nat × CombatStats)) (target : Nat) (s : CombatStats) :
    updateStats ((e', s') :: rest) target s =
      (if e' = target then (e', s) else (e', s')) :: updateStats rest target s := by
  by_cases h : e' = target
  · simp only [updateStats, List.map, if_pos h]
  · simp only [updateStats, List.map, if_neg h]

theorem lookupStats_updateStats_ne (world : World) (target e : Nat)
    (s : CombatStats) (hne : e ≠ target) :
    lookupStats (updateStats world target s) e = lookupStats world e := by
  induction world with
  | nil => rfl
  | cons p rest ih =>
    obtain ⟨e', s'⟩ := p
    rw [updateStats_cons]
    by_cases h : e' = target
    · have hne' : ¬(e' = e) := fun heq => hne (heq ▸ h)
      rw [if_pos h, lookupStats_cons, lookupStats_cons, if_neg hne', if_neg hne']
      exact ih
    · rw [if_neg h, lookupStats_cons, lookupStats_cons]
      by_cases h2 : e' = e
      · rw [if_pos h2, if_pos h2]
      · rw [if_neg h2, if_neg h2]
        exact ih

theorem lookupStats_updateStats_self (world : World) (target : Nat)
    (s0 s : CombatStats) (hl : lookupStats world target = some s0) :
    lookupStats (updateStats world target s) target = some s := by
  induction world with
  | nil => simp [lookupStats] at hl
  | cons p rest ih =>
    obtain ⟨e', s'⟩ := p
    rw [updateStats_cons]
    by_cases h : e' = target
    · rw [if_pos h, lookupStats_cons, if_pos h]
    · rw [if_neg h, lookupStats_cons, if_neg h]
      rw [lookupStats_cons, if_neg h] at hl
      exact ih hl

theorem combat_menu_cycle_isSome (selected : CombatMenuOption) (a d : Bool) :
    ∃ s', combat_menu_cycle selected a d = some s' := by
  cases selected <;> cases a <;> cases d <;> exact ⟨_, rfl⟩

theorem tick_repeating_just_finished (t : Timer) (delta : ℚ)
    (hrep : t.repeating = true) (hpos : 0 < t.duration)
    (h : t.duration ≤ t.elapsed + delta) :
    (t.tick delta).just_finished = true := by
  have h1 : (1:ℚ) ≤ (t.elapsed + delta) / t.duration := (one_le_div hpos).mpr h
  have hfloor : (1:ℤ) ≤ ((t.elapsed + delta) / t.duration).floor :=
    Rat.le_floor.mpr (by exact_mod_cast h1)
  unfold Timer.tick
  simp only [hrep]
  rw [if_neg (by simp)]
  rw [if_pos h]
  rw [if_pos trivial]
  unfold Timer.just_finished
  simp only [decide_eq_true_eq]
  omega

/-! ### Claim theorems -/

/-- C1, counterexample to the claim as stated: resolving a `FightEvent`
with `damage_amount = 1` against a Ghost (`health = max_health = 5`,
`defense = 2`) heals the target to health `6`, strictly above
`max_health`; the claimed bound "the resulting health never exceeds
`max_health`" is false. -/
theorem C1_counterexample_health_above_max :
    combat_damage_calc [⟨0, AttackType.Standard, 1, CombatState.PlayerAttack⟩]
        [(0, ghost_stats)] CombatState.PlayerTurn =
      .ok ([(0, { ghost_stats with health := 6 })], CombatState.PlayerAttack) ∧
    ({ ghost_stats with health := 6 } : CombatStats).health >
      ({ ghost_stats with health := 6 } : CombatStats).max_health := by
  exact ⟨rfl, by decide⟩

/-- C1 (amended): for every `FightEvent` processed by the damage
resolver, the target's new health equals
`max(old_health - (damage_amount - defense), 0)`; negative effective
damage (healing) when `defense > damage_amount` is applied unclamped;
the resulting health never goes below 0, and it never exceeds
`max_health` provided the effective damage is nonnegative
(`defense ≤ damage_amount`) — unclamped healing can push health above
`max_health`. -/
theorem C1_damage_formula (ev : FightEvent) (rest : List FightEvent)
    (world : World) (st : CombatState) (s : CombatStats)
    (hlook : lookupStats world ev.target = some s)
    (hinv : 0 ≤ s.health ∧ s.health ≤ s.max_health) :
    ∃ h', combat_damage_calc (ev :: rest) world st =
        .ok (updateStats world ev.target { s with health := h' },
          if h' = 0 then CombatState.Reward else ev.next_state) ∧
      h' = max (s.health - (ev.damage_amount - s.defense)) 0 ∧
      0 ≤ h' ∧
      (s.defense ≤ ev.damage_amount → h' ≤ s.max_health) := by
  refine ⟨damage_calc_health s.health ev.damage_amount s.defense, ?_, rfl, ?_, ?_⟩
  · simp only [combat_damage_calc, hlook]
    split <;> rfl
  · exact le_max_right _ _
  · intro hd
    simp only [damage_calc_health]
    omega

/-- Witness for `C1_damage_formula`: a Bat hit for 2 with defense 1. -/
theorem C1_damage_formula_witness :
    lookupStats [(0, bat_stats)] 0 = some bat_stats ∧
    (0 ≤ bat_stats.health ∧ bat_stats.health ≤ bat_stats.max_health) ∧
    ∃ h', combat_damage_calc
        [⟨0, AttackType.Standard, 2, CombatState.PlayerAttack⟩]
        [(0, bat_stats)] CombatState.PlayerTurn =
        .ok (updateStats [(0, bat_stats)] 0 { bat_stats with health := h' },
          if h' = 0 then CombatState.Reward else CombatState.PlayerAttack) ∧
      h' = max (bat_stats.health - (2 - bat_stats.defense)) 0 ∧
      0 ≤ h' ∧
      (bat_stats.defense ≤ 2 → h' ≤ bat_stats.max_health) :=
  ⟨rfl, by decide,
    C1_damage_formula ⟨0, AttackType.Standard, 2, CombatState.PlayerAttack⟩ []
      [(0, bat_stats)] CombatState.PlayerTurn bat_stats rfl (by decide)⟩

/-- C2: the damage resolver takes only the first queued `FightEvent`
(the rest of the tick's queue does not affect the result), and it moves
the combat state to `Reward` when the computed health is 0 and to the
event's `next_state` otherwise. -/
theorem C2_first_event_only_and_transition (ev : FightEvent)
    (rest : List FightEvent) (world : World) (st : CombatState)
    (s : CombatStats) (hlook : lookupStats world ev.target = some s) :
    combat_damage_calc (ev :: rest) world st =
      combat_damage_calc [ev] world st ∧
    combat_damage_calc (ev :: rest) world st =
      .ok (updateStats world ev.target
          { s with health := damage_calc_health s.health ev.damage_amount s.defense },
        if damage_calc_health s.health ev.damage_amount s.defense = 0
        then CombatState.Reward else ev.next_state) := by
  constructor
  · simp only [combat_damage_calc]
  · simp only [combat_damage_calc, hlook]
    split <;> rfl

/-- Witness for `C2_first_event_only_and_transition`: a queue of two
events against a Bat; only the first is resolved. -/
theorem C2_witness :
    lookupStats [(0, bat_stats)] 0 = some bat_stats ∧
    (combat_damage_calc
        [⟨0, AttackType.Standard, 2, CombatState.PlayerAttack⟩,
         ⟨0, AttackType.MagicGeneric, 4, CombatState.PlayerAttack⟩]
        [(0, bat_stats)] CombatState.PlayerTurn =
      combat_damage_calc [⟨0, AttackType.Standard, 2, CombatState.PlayerAttack⟩]
        [(0, bat_stats)] CombatState.PlayerTurn) ∧
    combat_damage_calc
        [⟨0, AttackType.Standard, 2, CombatState.PlayerAttack⟩,
         ⟨0, AttackType.MagicGeneric, 4, CombatState.PlayerAttack⟩]
        [(0, bat_stats)] CombatState.PlayerTurn =
      .ok (updateStats [(0, bat_stats)] 0
          { bat_stats with health := damage_calc_health bat_stats.health 2 bat_stats.defense },
        if damage_calc_health bat_stats.health 2 bat_stats.defense = 0
        then CombatState.Reward else CombatState.PlayerAttack) :=
  ⟨rfl,
    C2_first_event_only_and_transition
      ⟨0, AttackType.Standard, 2, CombatState.PlayerAttack⟩
      [⟨0, AttackType.MagicGeneric, 4, CombatState.PlayerAttack⟩]
      [(0, bat_stats)] CombatState.PlayerTurn bat_stats rfl⟩

/-- C6: starting from a Bat (`health = 3`, `defense = 1`), standard
attacks with `damage_amount = 2` remove exactly 1 health each; the
first two resolutions leave the state at the intent's `PlayerAttack`
(not `Reward`), and exactly the third resolution reaches `Reward`. -/
theorem C6_bat_dies_in_three_resolutions :
    combat_damage_calc [⟨0, AttackType.Standard, 2, CombatState.PlayerAttack⟩]
        [(0, bat_stats)] CombatState.PlayerTurn =
      .ok ([(0, { bat_stats with health := 2 })], CombatState.PlayerAttack) ∧
    combat_damage_calc [⟨0, AttackType.Standard, 2, CombatState.PlayerAttack⟩]
        [(0, { bat_stats with health := 2 })] CombatState.PlayerTurn =
      .ok ([(0, { bat_stats with health := 1 })], CombatState.PlayerAttack) ∧
    combat_damage_calc [⟨0, AttackType.Standard, 2, CombatState.PlayerAttack⟩]
        [(0, { bat_stats with health := 1 })] CombatState.PlayerTurn =
      .ok ([(0, { bat_stats with health := 0 })], CombatState.Reward) :=
  ⟨rfl, rfl, rfl⟩

/-- C3: confirming MagicAttack during `PlayerTurn` (selection cycles to
MagicAttack this tick, Return just pressed, an enemy present): with
`mana > 0` exactly 1 mana is spent and one `FightEvent` carrying
`MagicGeneric`, `damage_amount = 4`, `next_state = PlayerAttack` is
written; with `mana = 0` the stats are untouched, no event is written,
and the resolver consequently leaves the state at `PlayerTurn`. -/
theorem C3_magic_attack_mana_gate (keyboard : KeyboardInput)
    (player_stats : CombatStats) (target : Nat) (menu : CombatMenuOption)
    (world : World)
    (hret : keyboard.ret = true)
    (hcycle : combat_menu_cycle menu keyboard.a keyboard.d =
      some CombatMenuOption.MagicAttack) :
    (player_stats.mana > 0 →
      combat_input keyboard player_stats (some target) menu
          CombatState.PlayerTurn =
        some ⟨CombatMenuOption.MagicAttack,
          { player_stats with mana := player_stats.mana - 1 },
          [⟨target, AttackType.MagicGeneric, 4, CombatState.PlayerAttack⟩],
          false⟩) ∧
    (player_stats.mana = 0 →
      combat_input keyboard player_stats (some target) menu
          CombatState.PlayerTurn =
        some ⟨CombatMenuOption.MagicAttack, player_stats, [], false⟩ ∧
      combat_damage_calc [] world CombatState.PlayerTurn =
        .ok (world, CombatState.PlayerTurn)) := by
  constructor
  · intro hmana
    simp only [combat_input, hcycle, hret, if_pos hmana]
    simp
  · intro hmana
    refine ⟨?_, rfl⟩
    have : ¬player_stats.mana > 0 := by omega
    simp only [combat_input, hcycle, hret, if_neg this]
    simp

/-- Witness for `C3_magic_attack_mana_gate`: Return pressed with the
selection already on MagicAttack and no cycling keys. -/
theorem C3_witness :
    (KeyboardInput.mk false false true).ret = true ∧
    combat_menu_cycle CombatMenuOption.MagicAttack false false =
      some CombatMenuOption.MagicAttack ∧
    (({ health := 10, max_health := 10, mana := 0, max_mana := 5,
        attack := 2, defense := 1 } : CombatStats).mana = 0 →
      combat_input ⟨false, false, true⟩
          { health := 10, max_health := 10, mana := 0, max_mana := 5,
            attack := 2, defense := 1 } (some 7)
          CombatMenuOption.MagicAttack CombatState.PlayerTurn =
        some ⟨CombatMenuOption.MagicAttack,
          { health := 10, max_health := 10, mana := 0, max_mana := 5,
            attack := 2, defense := 1 }, [], false⟩ ∧
      combat_damage_calc [] [(7, ghost_stats)] CombatState.PlayerTurn =
        .ok ([(7, ghost_stats)], CombatState.PlayerTurn)) :=
  ⟨rfl, by decide,
    (C3_magic_attack_mana_gate ⟨false, false, true⟩
      { health := 10, max_health := 10, mana := 0, max_mana := 5,
        attack := 2, defense := 1 } 7 CombatMenuOption.MagicAttack
      [(7, ghost_stats)] rfl (by decide)).2⟩

/-- C4: a tick in `EnemyTurn(false)` emits exactly one `FightEvent`
(target = player, `Standard`, `damage_amount` = the enemy's attack stat,
`next_state = EnemyAttack`) and moves the phase to `EnemyTurn(true)`;
a tick in `EnemyTurn(true)` emits nothing (the AI system is scheduled
only on `EnemyTurn(false)`). -/
theorem C4_enemy_turn_fires_once (player_ent : Nat) (s : CombatStats) :
    enemy_turn_tick (CombatState.EnemyTurn false) player_ent (some s) =
      some ([⟨player_ent, AttackType.Standard, s.attack,
        CombatState.EnemyAttack⟩], CombatState.EnemyTurn true) ∧
    enemy_turn_tick (CombatState.EnemyTurn true) player_ent (some s) =
      some ([], CombatState.EnemyTurn true) := by
  constructor
  · rfl
  · rfl

/-- C8: resolving a `FightEvent` whose target has no `CombatStats`
panics (`expect("Fighting enemy without stats")`), modelled as the
`.error` result; when the first event's target does have stats, the
resolver returns normally, so the failure branch is unreachable under
that precondition. -/
theorem C8_missing_stats_is_fatal (ev : FightEvent) (rest : List FightEvent)
    (world : World) (st : CombatState) :
    (lookupStats world ev.target = none →
      combat_damage_calc (ev :: rest) world st =
        .error "Fighting enemy without stats") ∧
    (∀ s, lookupStats world ev.target = some s →
      ∃ r, combat_damage_calc (ev :: rest) world st = .ok r) := by
  constructor
  · intro hnone
    simp only [combat_damage_calc, hnone]
  · intro s hsome
    simp only [combat_damage_calc, hsome]
    split
    · exact ⟨_, rfl⟩
    · exact ⟨_, rfl⟩

/-- Witness for `C8_missing_stats_is_fatal`: entity 5 has no stats in a
world holding only entity 0, so resolving against it panics; resolving
against entity 0 itself returns normally. -/
theorem C8_witness :
    (combat_damage_calc [⟨5, AttackType.Standard, 2, CombatState.PlayerAttack⟩]
        [(0, bat_stats)] CombatState.PlayerTurn =
      .error "Fighting enemy without stats") ∧
    ∃ r, combat_damage_calc
        [⟨0, AttackType.Standard, 2, CombatState.PlayerAttack⟩]
        [(0, bat_stats)] CombatState.PlayerTurn = .ok r :=
  ⟨(C8_missing_stats_is_fatal
      ⟨5, AttackType.Standard, 2, CombatState.PlayerAttack⟩ []
      [(0, bat_stats)] CombatState.PlayerTurn).1 rfl,
    (C8_missing_stats_is_fatal
      ⟨0, AttackType.Standard, 2, CombatState.PlayerAttack⟩ []
      [(0, bat_stats)] CombatState.PlayerTurn).2 bat_stats rfl⟩

/-- C9: in any combat phase other than `PlayerTurn`, a `combat_input`
tick is a complete no-op regardless of the pressed keys: the menu
selection and player stats come back unchanged, no `FightEvent` is
written, and no fadeout is triggered. -/
theorem C9_input_noop_outside_player_turn (keyboard : KeyboardInput)
    (player_stats : CombatStats) (enemy_entity : Option Nat)
    (menu : CombatMenuOption) (state : CombatState)
    (hstate : state ≠ CombatState.PlayerTurn) :
    combat_input keyboard player_stats enemy_entity menu state =
      some ⟨menu, player_stats, [], false⟩ := by
  simp only [combat_input, if_pos hstate]

/-- Witness for `C9_input_noop_outside_player_turn`: all keys pressed
during `Reward`. -/
theorem C9_witness :
    (CombatState.Reward ≠ CombatState.PlayerTurn) ∧
    combat_input ⟨true, true, true⟩ bat_stats (some 0)
        CombatMenuOption.Attack CombatState.Reward =
      some ⟨CombatMenuOption.Attack, bat_stats, [], false⟩ :=
  ⟨by decide,
    C9_input_noop_outside_player_turn ⟨true, true, true⟩ bat_stats (some 0)
      CombatMenuOption.Attack CombatState.Reward (by decide)⟩

/-- C10: resolving a `FightEvent` touches only the target's `health`:
any other entity's stats are looked up unchanged, and the target's
`max_health`, `mana`, `max_mana`, `attack` and `defense` keep their old
values. -/
theorem C10_only_target_health_changes (ev : FightEvent)
    (rest : List FightEvent) (world : World) (st : CombatState)
    (world' : World) (st' : CombatState) (e : Nat) (s s' : CombatStats)
    (hok : combat_damage_calc (ev :: rest) world st = .ok (world', st'))
    (hne : e ≠ ev.target)
    (hs : lookupStats world ev.target = some s)
    (hs' : lookupStats world' ev.target = some s') :
    lookupStats world' e = lookupStats world e ∧
    s'.max_health = s.max_health ∧ s'.mana = s.mana ∧
    s'.max_mana = s.max_mana ∧ s'.attack = s.attack ∧
    s'.defense = s.defense := by
  have hw : world' = updateStats world ev.target
      { s with health := damage_calc_health s.health ev.damage_amount s.defense } := by
    simp only [combat_damage_calc, hs] at hok
    split at hok <;> · injection hok with h; exact (congrArg Prod.fst h.symm : _)
  subst hw
  refine ⟨lookupStats_updateStats_ne world ev.target e _ hne, ?_⟩
  have := lookupStats_updateStats_self world ev.target s
    { s with health := damage_calc_health s.health ev.damage_amount s.defense } hs
  rw [this] at hs'
  injection hs' with h
  rw [← h]
  exact ⟨rfl, rfl, rfl, rfl, rfl⟩

/-- Witness for `C10_only_target_health_changes`: a two-entity world,
entity 0 hit, entity 1 untouched. -/
theorem C10_witness :
    lookupStats [(0, { bat_stats with health := 2 }), (1, ghost_stats)] 1 =
      lookupStats [(0, bat_stats), (1, ghost_stats)] 1 ∧
    ({ bat_stats with health := 2 } : CombatStats).max_health = bat_stats.max_health ∧
    ({ bat_stats with health := 2 } : CombatStats).mana = bat_stats.mana ∧
    ({ bat_stats with health := 2 } : CombatStats).max_mana = bat_stats.max_mana ∧
    ({ bat_stats with health := 2 } : CombatStats).attack = bat_stats.attack ∧
    ({ bat_stats with health := 2 } : CombatStats).defense = bat_stats.defense :=
  C10_only_target_health_changes
    ⟨0, AttackType.Standard, 2, CombatState.PlayerAttack⟩ []
    [(0, bat_stats), (1, ghost_stats)] CombatState.PlayerTurn
    [(0, { bat_stats with health := 2 }), (1, ghost_stats)]
    CombatState.PlayerAttack 1 bat_stats { bat_stats with health := 2 }
    rfl (by decide) rfl rfl

/-- C5: whenever the attack-effect timer completes during
`handle_attack_effects` (its 0.7s period elapses this tick, i.e.
`elapsed + delta ≥ 0.7` for the repeating 0.7s timer), the enemy
sprite's visibility comes back `true` regardless of the prior flash
state, and the phase advances: `PlayerAttack → EnemyTurn(false)`,
otherwise (`EnemyAttack`) `→ PlayerTurn`. -/
theorem C5_timer_completion_restores_and_advances (sin2pi : ℚ → ℚ)
    (fx : AttackEffects) (delta : ℚ) (vis : Bool) (state : CombatState)
    (hrep : fx.timer.repeating = true)
    (hdur : fx.timer.duration = 7/10)
    (helapsed : (7:ℚ)/10 ≤ fx.timer.elapsed + delta)
    (hstate : state = CombatState.PlayerAttack ∨
      state = CombatState.EnemyAttack) :
    ∃ fx', handle_attack_effects sin2pi fx delta vis state =
      (fx', true,
        if state = CombatState.PlayerAttack then CombatState.EnemyTurn false
        else CombatState.PlayerTurn) := by
  have hjf : (fx.timer.tick delta).just_finished = true :=
    tick_repeating_just_finished fx.timer delta hrep
      (by rw [hdur]; norm_num) (by rw [hdur]; exact helapsed)
  unfold handle_attack_effects
  simp only [hjf]
  exact ⟨_, rfl⟩

/-- Witness for `C5_timer_completion_restores_and_advances`: the plugin's
0.7s repeating timer, a single 0.7s tick during `PlayerAttack` with the
sprite currently hidden by the flash. -/
theorem C5_witness :
    initial_attack_effects.timer.repeating = true ∧
    initial_attack_effects.timer.duration = 7/10 ∧
    (7:ℚ)/10 ≤ initial_attack_effects.timer.elapsed + 7/10 ∧
    ∃ fx', handle_attack_effects (fun _ => 0) initial_attack_effects (7/10)
        false CombatState.PlayerAttack =
      (fx', true, CombatState.EnemyTurn false) := by
  refine ⟨rfl, rfl,
    by norm_num [initial_attack_effects, Timer.from_seconds], ?_⟩
  have h := C5_timer_completion_restores_and_advances (fun _ => 0)
    initial_attack_effects (7/10) false CombatState.PlayerAttack rfl rfl
    (by norm_num [initial_attack_effects, Timer.from_seconds]) (Or.inl rfl)
  simpa using h

/-- C7: after any sequence of cycle-left (A) / cycle-right (D) inputs the
menu selection is still a valid option whose Rust discriminant lies in
{0, 1, 2} — the `unreachable!("Bad menu selection")` arm is never
taken. -/
theorem C7_menu_selection_stays_in_range (selected : CombatMenuOption)
    (inputs : List (Bool × Bool)) :
    ∃ s', apply_menu_inputs selected inputs = some s' ∧
      (s'.toIndex = 0 ∨ s'.toIndex = 1 ∨ s'.toIndex = 2) := by
  induction inputs generalizing selected with
  | nil =>
    refine ⟨selected, rfl, ?_⟩
    cases selected
    · exact Or.inl rfl
    · exact Or.inr (Or.inl rfl)
    · exact Or.inr (Or.inr rfl)
  | cons p rest ih =>
    obtain ⟨a, d⟩ := p
    obtain ⟨s1, hs1⟩ := combat_menu_cycle_isSome selected a d
    obtain ⟨s', hs', hrange⟩ := ih s1
    refine ⟨s', ?_, hrange⟩
    simp only [apply_menu_inputs, hs1]
    exact hs'

end Dreadblaze
